import Mathlib

/-!
Verification development for the multicopter attitude/rate controller in
`src/modules/mc_att_control/mc_att_control_main.cpp`.

The C++ module is shallowly embedded here.  Machine floats are modelled as
exact rationals (`ℚ`); a possibly non-finite float (NaN/Inf) is modelled as
`Option ℚ` where `none` stands for a non-finite value.  The state that the
module keeps in globals / member fields is bundled into explicit state
structures, and each per-cycle code block becomes a pure state-transition
function.  Values that live in the module header (which is not part of the
sources, only the `.cpp` is) are left as parameters of a configuration
record; where a claim depends on such a value the definition carries a
`Modelled from the spec:` comment.
-/

namespace McAttControl

/-! ## Throttle PID attenuation (`pid_attenuations`, lines 623-636)

`#define TPA_RATE_LOWER_LIMIT 0.05f` (line 58).  The function computes
`tpa = 1 - tpa_rate * (|thrust_sp| - tpa_breakpoint) / (1 - tpa_breakpoint)`,
clamps it with `fmaxf(TPA_RATE_LOWER_LIMIT, fminf(1.0f, tpa))` and returns the
per-axis vector `[tpa, tpa, 1.0]` (yaw unattenuated). -/

def TPA_RATE_LOWER_LIMIT : ℚ := 0.05

def tpaFactor (tpa_breakpoint tpa_rate thrust_sp : ℚ) : ℚ :=
  max TPA_RATE_LOWER_LIMIT
    (min 1 (1 - tpa_rate * (|thrust_sp| - tpa_breakpoint) / (1 - tpa_breakpoint)))

def pid_attenuations (tpa_breakpoint tpa_rate thrust_sp : ℚ) : Fin 3 → ℚ :=
  ![tpaFactor tpa_breakpoint tpa_rate thrust_sp,
    tpaFactor tpa_breakpoint tpa_rate thrust_sp,
    1]

/-- Definition following the spec's words (claim C7):
`clamp(x, lo, hi)`. -/
def specClamp (x lo hi : ℚ) : ℚ := max lo (min hi x)

/-! ## Output publisher (`publish_actuator_controls`, lines 1293-1314)

Each of the four primary channels is `PX4_ISFINITE(v) ? v : 0.0f`; a
non-finite float is modelled by `none`.  Battery scaling multiplies the four
primary channels when enabled and the scale is positive.  With the rate
control circuit breaker engaged, nothing is published. -/

structure ActuatorInputs where
  att_control : Fin 3 → Option ℚ
  thrust_sp : Option ℚ
  landing_gear_channel : ℚ
  bat_scale_en : Bool
  battery_scale : ℚ
  circuit_breaker_engaged : Bool

structure ActuatorMsg where
  control : Fin 4 → ℚ
  gear : ℚ

/-- `PX4_ISFINITE(v) ? v : 0.0f`. -/
def sanitizeChannel (v : Option ℚ) : ℚ :=
  match v with
  | some x => x
  | none => 0

def emittedControls (inp : ActuatorInputs) : Fin 4 → ℚ :=
  let c : Fin 4 → ℚ := fun i =>
    if i = 0 then sanitizeChannel (inp.att_control 0)
    else if i = 1 then sanitizeChannel (inp.att_control 1)
    else if i = 2 then sanitizeChannel (inp.att_control 2)
    else sanitizeChannel inp.thrust_sp
  if inp.bat_scale_en ∧ 0 < inp.battery_scale then
    fun i => c i * inp.battery_scale
  else c

def publish_actuator_controls (inp : ActuatorInputs) : Option ActuatorMsg :=
  if inp.circuit_breaker_engaged then none
  else some ⟨emittedControls inp, inp.landing_gear_channel⟩

/-! ## Landing gear logic (`get_landing_gear_state`, lines 411-431) -/

inductive SwitchPos where
  | switchOn
  | switchOff
  | switchMiddle
  | switchNone
deriving DecidableEq

inductive GearState where
  | up
  | down
deriving DecidableEq

/-- One evaluation of `get_landing_gear_state`: takes the `landed` flag and
the pilot gear switch, threads the `_gear_state_initialized` member, and
returns the new member value together with the gear command. -/
def gearStep (landed : Bool) (sw : SwitchPos) (ini : Bool) : Bool × GearState :=
  let ini := if landed then false else ini
  if sw = SwitchPos.switchOn ∧ ini = true then (ini, GearState.up)
  else if sw = SwitchPos.switchOff then (true, GearState.down)
  else (ini, GearState.down)

/-- The sequence of gear commands over a run of evaluations, each input being
a pair (landed flag, switch position). -/
def gearRun (ini : Bool) : List (Bool × SwitchPos) → List GearState
  | [] => []
  | (l, sw) :: rest =>
    (gearStep l sw ini).2 :: gearRun (gearStep l sw ini).1 rest

/-! ## Sensor correction pipeline
(`sensor_correction_poll` lines 339-354, gyro correction lines 651-681)

`MAX_GYRO_COUNT` and the initial value of `_selected_gyro` live in the
module header which is not among the sources. -/

structure SensorCorrection where
  gyro_offset_0 : Fin 3 → ℚ
  gyro_scale_0 : Fin 3 → ℚ
  gyro_offset_1 : Fin 3 → ℚ
  gyro_scale_1 : Fin 3 → ℚ
  gyro_offset_2 : Fin 3 → ℚ
  gyro_scale_2 : Fin 3 → ℚ
  selected_gyro_instance : ℕ

/-- The selection update in `sensor_correction_poll`: the reported instance is
adopted only when it is valid (`< _gyro_count`), otherwise the previous
selection is kept. -/
def selectGyro (sel : ℕ) (corr : SensorCorrection) (gyro_count : ℕ) : ℕ :=
  if corr.selected_gyro_instance < gyro_count then corr.selected_gyro_instance else sel

/-- Modelled from the spec: the initial value of the `_selected_gyro` member is
declared in the missing module header; per the spec the pipeline defaults to
instance 0 ("falls back to instance 0 if the reported selection is invalid or
unavailable").  `selectGyroRun` folds a history of received
`sensor_correction` messages starting from that default. -/
def selectGyroRun (gyro_count : ℕ) (hist : List SensorCorrection) : ℕ :=
  hist.foldl (fun sel corr => selectGyro sel corr gyro_count) 0

/-- Offsets of the instance selected by index, as used by the branch ladder in
`control_attitude_rates`. -/
def gyroOffset (corr : SensorCorrection) (sel : ℕ) : Fin 3 → ℚ :=
  if sel = 0 then corr.gyro_offset_0
  else if sel = 1 then corr.gyro_offset_1
  else corr.gyro_offset_2

def gyroScale (corr : SensorCorrection) (sel : ℕ) : Fin 3 → ℚ :=
  if sel = 0 then corr.gyro_scale_0
  else if sel = 1 then corr.gyro_scale_1
  else corr.gyro_scale_2

/-- Lines 651-681: thermal offset/scale correction for the selected instance
(the final `else` uses the raw sample), rotation into the body frame by
`_board_rotation`, and subtraction of the in-run bias estimate. -/
def correctedRates (sel : ℕ) (corr : SensorCorrection) (raw : Fin 3 → ℚ)
    (board_rotation : Fin 3 → Fin 3 → ℚ) (bias : Fin 3 → ℚ) : Fin 3 → ℚ :=
  let r0 : Fin 3 → ℚ :=
    if sel = 0 then fun a => (raw a - corr.gyro_offset_0 a) * corr.gyro_scale_0 a
    else if sel = 1 then fun a => (raw a - corr.gyro_offset_1 a) * corr.gyro_scale_1 a
    else if sel = 2 then fun a => (raw a - corr.gyro_offset_2 a) * corr.gyro_scale_2 a
    else raw
  fun a => (∑ b, board_rotation a b * r0 b) - bias a

/-! ## The "CYW modern control" block (`control_attitude_rates`, lines 760-1256)

The whole block runs once per cycle, guarded by `if(cywmc_able)`.  Its
mutable globals are collected in `CywState`; values that are set in the
missing module header (mission selection, safety ceiling, learned maxima,
masses/inertias, ramp rate, ...) are collected in `CywConfig`.  The per-cycle
measurements (elapsed armed time `run_t`, local position `z`/`vz`, Euler
angles, corrected body rates, loop step `dt`) form `CywInput`.

The state-space matrices `ss_A`, `ss_B`, `ss_C`, `ss_K` are written exactly
once, with fixed constants, in the `if(ss_seted==0)` one-time setup block
(lines 861-955) and are never written again, so they are factored out as
top-level definitions rather than carried in the state. -/

structure CywConfig where
  modern_control_mission_able : Bool
  cywmc_angle_control : Bool
  safety_return_time : ℚ
  return_degress_rate : ℚ
  ss_m : ℚ
  g : ℚ
  ss_Ixx : ℚ
  ss_Iyy : ℚ
  ss_Izz : ℚ
  T_max : ℚ
  Mx_max : ℚ
  My_max : ℚ
  Mz_max : ℚ
  ss_G_scale_0 : ℚ
  mission_2_time_still : ℚ
  mission_2_time_height : ℚ
  mission_2_setout_Z : ℚ

structure CywInput where
  run_t : ℚ
  z : ℚ
  agl_roll : ℚ
  agl_pitch : ℚ
  agl_yaw : ℚ
  rate_z : ℚ
  rate_roll : ℚ
  rate_pitch : ℚ
  rate_yaw : ℚ
  dt : ℚ

structure CywState where
  cywmc_able : Bool
  ss_seted : Bool
  need_update_r : Bool
  setout_Z : ℚ
  ss_r : Fin 4 → ℚ
  ss_x : Fin 8 → ℚ
  ss_u_actual : Fin 4 → ℚ
  ss_u_scale : Fin 4 → ℚ
  ss_y : Fin 4 → ℚ
  mission_select : ℕ
  is_msl_t_set : Bool
  ms1_t : Fin 4 → ℚ
  mordern_control_able : Bool
  give_output_able : Bool
  return_back_to_0m_able : Bool
  start_return_back_runt : ℚ
  back_Z_aim : ℚ
  att_control : Fin 3 → ℚ
  thrust_sp : ℚ

/-- Lines 893-897: `ss_A(0,4)=ss_A(1,5)=ss_A(2,6)=ss_A(3,7)=1`, all other
entries zero. -/
def ss_A : Fin 8 → Fin 8 → ℚ := fun i j =>
  if i = 0 ∧ j = 4 then 1
  else if i = 1 ∧ j = 5 then 1
  else if i = 2 ∧ j = 6 then 1
  else if i = 3 ∧ j = 7 then 1
  else 0

/-- Lines 899-903: `ss_B(4,0)=1/ss_m`, `ss_B(5,1)=1/ss_Ixx`,
`ss_B(6,2)=1/ss_Iyy`, `ss_B(7,3)=1/ss_Izz`, all other entries zero. -/
def ss_B (cfg : CywConfig) : Fin 8 → Fin 4 → ℚ := fun i j =>
  if i = 4 ∧ j = 0 then 1 / cfg.ss_m
  else if i = 5 ∧ j = 1 then 1 / cfg.ss_Ixx
  else if i = 6 ∧ j = 2 then 1 / cfg.ss_Iyy
  else if i = 7 ∧ j = 3 then 1 / cfg.ss_Izz
  else 0

/-- Lines 905-909: identity selection of the four position/angle states. -/
def ss_C : Fin 4 → Fin 8 → ℚ := fun i j =>
  if (j : ℕ) = (i : ℕ) then 1 else 0

/-- Lines 915-935: the fixed regulator gain matrix `ss_k`. -/
def ss_K : Fin 4 → Fin 8 → ℚ
  | 0, 0 => 3
  | 0, 4 => 4
  | 1, 1 => 1.4800
  | 1, 2 => -0.3884
  | 1, 3 => -0.3751
  | 1, 5 => 0.5151
  | 1, 6 => -0.0914
  | 1, 7 => -0.0650
  | 2, 1 => 0.1841
  | 2, 2 => 1.6960
  | 2, 3 => -0.0133
  | 2, 5 => 0.0709
  | 2, 6 => 0.5454
  | 2, 7 => 0.0140
  | 3, 1 => 0.9353
  | 3, 2 => 0.6032
  | 3, 3 => 5.4446
  | 3, 5 => 0.0915
  | 3, 6 => 0.1529
  | 3, 7 => 2.1972
  | _, _ => 0

/-- The reference vector after `ss_r(0,0)=setout_Z; ss_r=ss_G_scale*ss_r`:
`ss_G_scale` is diagonal with only entry `(0,0)=ss_G_scale_0` nonzero
(lines 881-884), so the product is `(ss_G_scale_0*setout_Z, 0, 0, 0)`. -/
def scaledReference (cfg : CywConfig) (setout_Z : ℚ) : Fin 4 → ℚ := fun i =>
  if i = 0 then cfg.ss_G_scale_0 * setout_Z else 0

/-- One-time state-space setup (lines 861-955), guarded by `ss_seted`. -/
def initSS (cfg : CywConfig) (s : CywState) : CywState :=
  if s.ss_seted then s
  else
    { s with
      ss_x := fun _ => 0
      ss_u_scale := fun _ => 0
      ss_u_actual := fun _ => 0
      ss_y := fun _ => 0
      ss_r := scaledReference cfg s.setout_Z
      ss_seted := true }

/-- Lines 958-963: recompute `ss_r` from the current `setout_Z` when
`need_update_r` is set, then clear the flag. -/
def updateReference (cfg : CywConfig) (s : CywState) : CywState :=
  if s.need_update_r then
    { s with ss_r := scaledReference cfg s.setout_Z, need_update_r := false }
  else s

/-- Mission 1 (lines 969-1010): time plan `[5,15,15,15]` written on first
entry (only index 0 differs from 15). -/
def ms1Plan : Fin 4 → ℚ := fun i => if i = 0 then 5 else 15

/-- The first-entry plan write (`if(!is_msl_t_set){...}`). -/
def mission1Base (s : CywState) : CywState :=
  if s.is_msl_t_set then s
  else { s with ms1_t := ms1Plan, is_msl_t_set := true }

def mission1 (t : ℚ) (s : CywState) : CywState :=
  let s1 := mission1Base s
  if t < s1.ms1_t 0 then
    { s1 with give_output_able := false, att_control := fun _ => 0, thrust_sp := 0 }
  else if s1.ms1_t 0 < t ∧ t < s1.ms1_t 0 + s1.ms1_t 1 then
    { s1 with need_update_r := true, setout_Z := 1 }
  else if s1.ms1_t 0 < t ∧ t < s1.ms1_t 0 + s1.ms1_t 1 + s1.ms1_t 2 then
    { s1 with need_update_r := true, setout_Z := 1.5 }
  else if s1.ms1_t 0 < t ∧ t < s1.ms1_t 0 + s1.ms1_t 1 + s1.ms1_t 2 + s1.ms1_t 3 then
    { s1 with need_update_r := true, setout_Z := 2 }
  else
    { s1 with
      return_back_to_0m_able := true
      mission_select := 0
      start_return_back_runt := t }

/-- Mission 2 (lines 1013-1043): plan entries 0 and 1 written on first entry. -/
def mission2Base (cfg : CywConfig) (s : CywState) : CywState :=
  if s.is_msl_t_set then s
  else { s with
    ms1_t := fun i =>
      if i = 0 then cfg.mission_2_time_still
      else if i = 1 then cfg.mission_2_time_height
      else s.ms1_t i
    is_msl_t_set := true }

def mission2 (cfg : CywConfig) (t : ℚ) (s : CywState) : CywState :=
  let s1 := mission2Base cfg s
  if t < s1.ms1_t 0 then
    { s1 with give_output_able := false, att_control := fun _ => 0, thrust_sp := 0 }
  else if s1.ms1_t 0 < t ∧ t < s1.ms1_t 0 + s1.ms1_t 1 then
    { s1 with need_update_r := true, setout_Z := cfg.mission_2_setout_Z }
  else
    { s1 with
      return_back_to_0m_able := true
      mission_select := 0
      start_return_back_runt := t }

/-- Lines 965-1085: mission sequencer.  When the mission feature is enabled the
block first sets `mordern_control_able` and `give_output_able`, then runs the
selected mission's branch ladder; otherwise it suppresses output.  The two
mission `if`s are sequential in the source, and mission 1 clears the
selection when it ends, so the order below is faithful. -/
def missionBlock (cfg : CywConfig) (t : ℚ) (s : CywState) : CywState :=
  if cfg.modern_control_mission_able then
    let s1 := { s with mordern_control_able := true, give_output_able := true }
    let s2 := if s1.mission_select = 1 then mission1 t s1 else s1
    if s2.mission_select = 2 then mission2 cfg t s2 else s2
  else
    { s with give_output_able := false }

/-- Lines 1088-1090: the absolute safety timeout clears `cywmc_able`. -/
def safetyBlock (cfg : CywConfig) (t : ℚ) (s : CywState) : CywState :=
  if cfg.safety_return_time < t then { s with cywmc_able := false } else s

/-- Lines 1091-1125: the return-to-0m ramp.  The decay condition reads
`back_Z_aim` and `setout_Z` before this block modifies them (only
`need_update_r` has been written at that point), so it is phrased on `s`
directly; the snap-to-zero condition reads the possibly decayed value. -/
def returnBlock (cfg : CywConfig) (z : ℚ) (s : CywState) : CywState :=
  if s.return_back_to_0m_able then
    let s2 :=
      if -z < s.back_Z_aim / cfg.return_degress_rate ∧ 0.25 ≤ s.setout_Z then
        { s with
          need_update_r := true
          back_Z_aim := -z * cfg.return_degress_rate
          setout_Z := s.setout_Z * cfg.return_degress_rate }
      else { s with need_update_r := true }
    let s3 :=
      if s2.setout_Z < 0.25 then { s2 with setout_Z := 0, need_update_r := true }
      else s2
    if -z < 0.2 then { s3 with give_output_able := false } else s3
  else s

/-- The state vector as assembled from the measurements at lines 1133-1140:
`[-Z, roll, pitch, yaw, -rate_Z, rate_roll, rate_pitch, rate_yaw]`. -/
def stateVec (inp : CywInput) : Fin 8 → ℚ :=
  ![-inp.z, inp.agl_roll, inp.agl_pitch, inp.agl_yaw,
    -inp.rate_z, inp.rate_roll, inp.rate_pitch, inp.rate_yaw]

/-- Lines 1131-1146: the full-state feedback update, run when
`mordern_control_able`.  The state vector is rebuilt from the measurements
each cycle, then `ss_u_actual = ss_r - ss_k*ss_x`,
`ss_x_dot = ss_B*ss_u_actual + ss_A*ss_x`, `ss_x += ss_x_dot*dt`,
`ss_y = ss_C*ss_x`. -/
def feedbackBlock (cfg : CywConfig) (inp : CywInput) (s : CywState) : CywState :=
  if s.mordern_control_able then
    let x : Fin 8 → ℚ := stateVec inp
    let u : Fin 4 → ℚ := fun i => s.ss_r i - ∑ j, ss_K i j * x j
    let xn : Fin 8 → ℚ := fun i =>
      x i + ((∑ j, ss_B cfg i j * u j) + ∑ j, ss_A i j * x j) * inp.dt
    { s with
      ss_u_actual := u
      ss_x := xn
      ss_y := fun i => ∑ j, ss_C i j * xn j }
  else s

/-- Lines 1149-1206: actuator-demand normalization and output, gated by
`give_output_able`; when suppressed, torque channels are zeroed only under
`cywmc_angle_control` and thrust is zeroed unconditionally. -/
def outputBlock (cfg : CywConfig) (s : CywState) : CywState :=
  if s.give_output_able then
    let usc : Fin 4 → ℚ := fun i =>
      if i = 0 then (s.ss_u_actual 0 + cfg.ss_m * cfg.g) / cfg.T_max
      else if i = 1 then s.ss_u_actual 1 / cfg.Mx_max
      else if i = 2 then s.ss_u_actual 2 / cfg.My_max
      else s.ss_u_actual 3 / cfg.Mz_max
    let s1 := { s with ss_u_scale := usc }
    let s2 := if cfg.cywmc_angle_control then
        { s1 with att_control := ![usc 1, usc 2, usc 3] }
      else s1
    { s2 with thrust_sp := usc 0 }
  else
    let s1 := if cfg.cywmc_angle_control then
        { s with att_control := fun _ => 0 }
      else s
    { s1 with thrust_sp := 0 }

/-- One full cycle of the CYW block in source order: one-time setup, reference
update, mission sequencer, safety timeout, return ramp, state feedback,
output.  When `cywmc_able` is clear the whole block is skipped and the state
is untouched. -/
def cywStep (cfg : CywConfig) (inp : CywInput) (s : CywState) : CywState :=
  if s.cywmc_able then
    outputBlock cfg
      (feedbackBlock cfg inp
        (returnBlock cfg inp.z
          (safetyBlock cfg inp.run_t
            (missionBlock cfg inp.run_t
              (updateReference cfg (initSS cfg s))))))
  else s

/-- Definition following the spec's words (claim C2): with cumulative
thresholds `5 < 20 < 35 < 50` from the plan `[5,15,15,15]`, the active phase
is the smallest `k` with `run_t ∈ [T_0+...+T_(k-1), T_0+...+T_k)`; index 4
stands for the Returning phase after the last threshold. -/
def specMission1PhaseIdx (t : ℚ) : ℕ :=
  if t < 5 then 0
  else if t < 20 then 1
  else if t < 35 then 2
  else if t < 50 then 3
  else 4

/-- Modelled from the spec: the numeric value of `return_degress_rate` lives in
the missing module header; the spec describes a geometric decay ("ramp back
toward zero", "geometrically decay ... by ramp_rate"), i.e. a per-step factor
strictly between 0 and 1. -/
def rampRateValid (cfg : CywConfig) : Prop :=
  0 < cfg.return_degress_rate ∧ cfg.return_degress_rate < 1

/-! ## Theorems: TPA (C7) -/

lemma tpaClamp_antitone (bp rate L : ℚ) {a b : ℚ}
    (hba : bp ≤ a) (hab : a ≤ b) :
    max L (min 1 (1 - rate * (b - bp) / (1 - bp)))
      ≤ max L (min 1 (1 - rate * (a - bp) / (1 - bp))) := by
  have key : ∀ x : ℚ, rate * (x - bp) / (1 - bp) = rate / (1 - bp) * (x - bp) := by
    intro x
    rw [div_mul_eq_mul_div]
  rw [key a, key b]
  set c := rate / (1 - bp) with hc
  rcases le_or_lt 0 c with h0 | h0
  · have hm : c * (a - bp) ≤ c * (b - bp) :=
      mul_le_mul_of_nonneg_left (by linarith) h0
    exact max_le_max le_rfl (min_le_min le_rfl (by linarith))
  · have ha1 : (1 : ℚ) ≤ 1 - c * (a - bp) := by nlinarith
    have hb1 : (1 : ℚ) ≤ 1 - c * (b - bp) := by nlinarith
    rw [min_eq_left ha1, min_eq_left hb1]

/-- C7: for every thrust setpoint, breakpoint and rate, the TPA factor computed
by `pid_attenuations` equals `clamp(1 - rate*(|thrust_sp| - bp)/(1 - bp), 0.05, 1)`
on the roll and pitch channels, is bounded to `[0.05, 1]`, is monotonically
non-increasing in `|thrust_sp|` above the breakpoint, and the yaw-channel
factor is exactly 1. -/
theorem C7_tpa_attenuation (bp rate th s1 s2 : ℚ)
    (hbp : bp ≤ |s1|) (hs : |s1| ≤ |s2|) :
    pid_attenuations bp rate th 0
        = specClamp (1 - rate * (|th| - bp) / (1 - bp)) 0.05 1 ∧
    pid_attenuations bp rate th 1
        = specClamp (1 - rate * (|th| - bp) / (1 - bp)) 0.05 1 ∧
    0.05 ≤ pid_attenuations bp rate th 0 ∧
    pid_attenuations bp rate th 0 ≤ 1 ∧
    pid_attenuations bp rate s2 0 ≤ pid_attenuations bp rate s1 0 ∧
    pid_attenuations bp rate th 2 = 1 := by
  have hpid : ∀ t : ℚ, pid_attenuations bp rate t 0 = tpaFactor bp rate t := by
    intro t; rfl
  have hpid1 : pid_attenuations bp rate th 1 = tpaFactor bp rate th := by rfl
  refine ⟨?_, ?_, ?_, ?_, ?_, ?_⟩
  · rw [hpid]; rfl
  · rw [hpid1]; rfl
  · rw [hpid]
    exact le_max_left _ _
  · rw [hpid]
    exact max_le (by norm_num [TPA_RATE_LOWER_LIMIT]) (min_le_left _ _)
  · rw [hpid, hpid]
    unfold tpaFactor
    exact tpaClamp_antitone bp rate _ hbp hs
  · rfl

theorem C7_tpa_attenuation_witness :
    ((1 : ℚ) / 2 ≤ |(3 : ℚ) / 4| ∧ |(3 : ℚ) / 4| ≤ |(9 : ℚ) / 10|) ∧
    pid_attenuations (1/2) 1 ((3:ℚ)/4) 2 = 1 := by
  have h1 : |(3 : ℚ) / 4| = 3 / 4 := abs_of_nonneg (by norm_num)
  have h2 : |(9 : ℚ) / 10| = 9 / 10 := abs_of_nonneg (by norm_num)
  refine ⟨⟨by rw [h1]; norm_num, by rw [h1, h2]; norm_num⟩, ?_⟩
  exact (C7_tpa_attenuation (1/2) 1 (3/4) (3/4) (9/10)
    (by rw [h1]; norm_num) (by rw [h1, h2]; norm_num)).2.2.2.2.2

/-! ## Theorems: output publisher (C3) -/

/-- C3: any non-finite value among the four primary actuator channels is
replaced by exactly 0 in the emitted vector; with the rate-control circuit
breaker engaged nothing is published at all. -/
theorem C3_output_boundary (inp : ActuatorInputs) :
    (inp.circuit_breaker_engaged = true → publish_actuator_controls inp = none) ∧
    (inp.circuit_breaker_engaged = false →
      publish_actuator_controls inp
        = some ⟨emittedControls inp, inp.landing_gear_channel⟩) ∧
    (inp.att_control 0 = none → emittedControls inp 0 = 0) ∧
    (inp.att_control 1 = none → emittedControls inp 1 = 0) ∧
    (inp.att_control 2 = none → emittedControls inp 2 = 0) ∧
    (inp.thrust_sp = none → emittedControls inp 3 = 0) := by
  refine ⟨?_, ?_, ?_, ?_, ?_, ?_⟩
  · intro h; simp [publish_actuator_controls, h]
  · intro h; simp [publish_actuator_controls, h]
  · intro h
    simp only [emittedControls, h]
    split
    · simp [sanitizeChannel]
    · simp [sanitizeChannel]
  · intro h
    simp only [emittedControls, h]
    split
    · simp [sanitizeChannel]
    · simp [sanitizeChannel]
  · intro h
    simp only [emittedControls, h]
    split
    · simp [sanitizeChannel]
    · simp [sanitizeChannel]
  · intro h
    simp only [emittedControls, h]
    split
    · simp [sanitizeChannel]
    · simp [sanitizeChannel]

def cbInput : ActuatorInputs :=
  ⟨fun _ => some 1, some 1, 0, false, 1, true⟩

def nanInput : ActuatorInputs :=
  ⟨fun _ => none, none, 0, true, 2, false⟩

theorem C3_output_boundary_witness :
    publish_actuator_controls cbInput = none ∧
    emittedControls nanInput 0 = 0 ∧ emittedControls nanInput 3 = 0 :=
  ⟨(C3_output_boundary cbInput).1 rfl,
   (C3_output_boundary nanInput).2.2.1 rfl,
   (C3_output_boundary nanInput).2.2.2.2.2 rfl⟩

/-! ## Theorems: landing gear (C9) -/

lemma gearRun_down_of_no_off (l : List (Bool × SwitchPos))
    (h : ∀ p ∈ l, p.2 = SwitchPos.switchOn) :
    GearState.up ∉ gearRun false l := by
  induction l with
  | nil => simp [gearRun]
  | cons p rest ih =>
    obtain ⟨landed, sw⟩ := p
    have hsw : sw = SwitchPos.switchOn := h _ (List.mem_cons_self _ _)
    subst hsw
    have hrest : ∀ p ∈ rest, p.2 = SwitchPos.switchOn := fun p hp =>
      h p (List.mem_cons_of_mem _ hp)
    simp [gearRun, gearStep, ih hrest]

/-- C9: with the gear switch held "on" continuously from before arming (the
vehicle initially landed), the landing gear command never becomes "up" until
the switch has passed through "off" at least once. -/
theorem C9_landing_gear (ini : Bool) (rest : List (Bool × SwitchPos))
    (h : ∀ p ∈ rest, p.2 = SwitchPos.switchOn) :
    GearState.up ∉ gearRun ini ((true, SwitchPos.switchOn) :: rest) := by
  have hstep : gearStep true SwitchPos.switchOn ini = (false, GearState.down) := by
    simp [gearStep]
  simp only [gearRun, hstep]
  simpa using gearRun_down_of_no_off rest h

theorem C9_landing_gear_witness :
    GearState.up ∉ gearRun true
      ((true, SwitchPos.switchOn)
        :: [(true, SwitchPos.switchOn), (false, SwitchPos.switchOn)]) :=
  C9_landing_gear true [(true, SwitchPos.switchOn), (false, SwitchPos.switchOn)]
    (by decide)

/-! ## Theorems: sensor correction pipeline (C6) -/

lemma selectGyroRun_invalid_aux (cnt : ℕ) (l : List SensorCorrection) (a : ℕ)
    (h : ∀ c ∈ l, cnt ≤ c.selected_gyro_instance) :
    l.foldl (fun sel corr => selectGyro sel corr cnt) a = a := by
  induction l generalizing a with
  | nil => rfl
  | cons c rest ih =>
    have hc : cnt ≤ c.selected_gyro_instance := h _ (List.mem_cons_self _ _)
    have hrest : ∀ c ∈ rest, cnt ≤ c.selected_gyro_instance := fun c hcm =>
      h c (List.mem_cons_of_mem _ hcm)
    simp only [List.foldl_cons, selectGyro, if_neg (not_lt.mpr hc)]
    exact ih a hrest

/-- C6: for every gyro sample, the corrected body rate equals the
board-to-body rotation applied to `(raw - offset[selected]) * scale[selected]`
per axis, minus the in-run bias estimate; an invalid reported selection
(not less than the instance count) leaves the selected index unchanged — so a
history of only-invalid reports keeps it at the default instance 0 — and the
index changes exactly when a valid selection arrives. -/
theorem C6_gyro_pipeline (sel gyro_count : ℕ) (corr : SensorCorrection)
    (raw bias : Fin 3 → ℚ) (board : Fin 3 → Fin 3 → ℚ)
    (hist : List SensorCorrection) (hsel : sel < 3)
    (hhist : ∀ c ∈ hist, gyro_count ≤ c.selected_gyro_instance) :
    correctedRates sel corr raw board bias
      = (fun a => (∑ b, board a b
          * ((raw b - gyroOffset corr sel b) * gyroScale corr sel b)) - bias a) ∧
    (corr.selected_gyro_instance < gyro_count →
      selectGyro sel corr gyro_count = corr.selected_gyro_instance) ∧
    (gyro_count ≤ corr.selected_gyro_instance →
      selectGyro sel corr gyro_count = sel) ∧
    selectGyroRun gyro_count hist = 0 := by
  refine ⟨?_, ?_, ?_, ?_⟩
  · match sel, hsel with
    | 0, _ => funext a; simp [correctedRates, gyroOffset, gyroScale]
    | 1, _ => funext a; simp [correctedRates, gyroOffset, gyroScale]
    | 2, _ => funext a; simp [correctedRates, gyroOffset, gyroScale]
  · intro h; simp [selectGyro, h]
  · intro h; simp [selectGyro, not_lt.mpr h]
  · exact selectGyroRun_invalid_aux gyro_count hist 0 hhist

def invalidCorr : SensorCorrection :=
  ⟨fun _ => 0, fun _ => 1, fun _ => 0, fun _ => 1, fun _ => 0, fun _ => 1, 7⟩

theorem C6_gyro_pipeline_witness :
    ((1 : ℕ) < 3 ∧ ∀ c ∈ [invalidCorr], (2 : ℕ) ≤ c.selected_gyro_instance) ∧
    selectGyroRun 2 [invalidCorr] = 0 := by
  refine ⟨⟨by decide, ?_⟩, ?_⟩
  · intro c hcm
    simp only [List.mem_singleton] at hcm
    subst hcm
    decide
  · exact (C6_gyro_pipeline 1 2 invalidCorr (fun _ => 0) (fun _ => 0)
      (fun _ _ => 0) [invalidCorr] (by decide)
      (by intro c hcm; simp only [List.mem_singleton] at hcm; subst hcm; decide)).2.2.2

/-! ## Projection helpers for the CYW block

None of the blocks below touches `cywmc_able` except `safetyBlock`; several
blocks leave `setout_Z`, the return flags and the commands alone.  These
little lemmas let the per-claim proofs push a field projection through the
cycle. -/

lemma initSS_cywmc_able (cfg : CywConfig) (s : CywState) :
    (initSS cfg s).cywmc_able = s.cywmc_able := by
  unfold initSS; split <;> rfl

lemma initSS_setout_Z (cfg : CywConfig) (s : CywState) :
    (initSS cfg s).setout_Z = s.setout_Z := by
  unfold initSS; split <;> rfl

lemma initSS_mission_select (cfg : CywConfig) (s : CywState) :
    (initSS cfg s).mission_select = s.mission_select := by
  unfold initSS; split <;> rfl

lemma initSS_is_msl_t_set (cfg : CywConfig) (s : CywState) :
    (initSS cfg s).is_msl_t_set = s.is_msl_t_set := by
  unfold initSS; split <;> rfl

lemma initSS_return_back (cfg : CywConfig) (s : CywState) :
    (initSS cfg s).return_back_to_0m_able = s.return_back_to_0m_able := by
  unfold initSS; split <;> rfl

lemma initSS_back_Z_aim (cfg : CywConfig) (s : CywState) :
    (initSS cfg s).back_Z_aim = s.back_Z_aim := by
  unfold initSS; split <;> rfl

lemma updateReference_cywmc_able (cfg : CywConfig) (s : CywState) :
    (updateReference cfg s).cywmc_able = s.cywmc_able := by
  unfold updateReference; split <;> rfl

lemma updateReference_setout_Z (cfg : CywConfig) (s : CywState) :
    (updateReference cfg s).setout_Z = s.setout_Z := by
  unfold updateReference; split <;> rfl

lemma updateReference_mission_select (cfg : CywConfig) (s : CywState) :
    (updateReference cfg s).mission_select = s.mission_select := by
  unfold updateReference; split <;> rfl

lemma updateReference_is_msl_t_set (cfg : CywConfig) (s : CywState) :
    (updateReference cfg s).is_msl_t_set = s.is_msl_t_set := by
  unfold updateReference; split <;> rfl

lemma updateReference_return_back (cfg : CywConfig) (s : CywState) :
    (updateReference cfg s).return_back_to_0m_able = s.return_back_to_0m_able := by
  unfold updateReference; split <;> rfl

lemma updateReference_back_Z_aim (cfg : CywConfig) (s : CywState) :
    (updateReference cfg s).back_Z_aim = s.back_Z_aim := by
  unfold updateReference; split <;> rfl

lemma mission1Base_cywmc_able (s : CywState) :
    (mission1Base s).cywmc_able = s.cywmc_able := by
  unfold mission1Base; split <;> rfl

lemma mission2Base_cywmc_able (cfg : CywConfig) (s : CywState) :
    (mission2Base cfg s).cywmc_able = s.cywmc_able := by
  unfold mission2Base; split <;> rfl

lemma mission1_cywmc_able (t : ℚ) (s : CywState) :
    (mission1 t s).cywmc_able = s.cywmc_able := by
  unfold mission1; dsimp only
  split_ifs <;> simp [mission1Base_cywmc_able]

lemma mission2_cywmc_able (cfg : CywConfig) (t : ℚ) (s : CywState) :
    (mission2 cfg t s).cywmc_able = s.cywmc_able := by
  unfold mission2; dsimp only
  split_ifs <;> simp [mission2Base_cywmc_able]

lemma missionBlock_cywmc_able (cfg : CywConfig) (t : ℚ) (s : CywState) :
    (missionBlock cfg t s).cywmc_able = s.cywmc_able := by
  unfold missionBlock
  dsimp only
  split_ifs <;> simp [mission1_cywmc_able, mission2_cywmc_able]

/-- When the mission feature is on but no mission is selected, the mission
block only raises the two enable flags. -/
lemma missionBlock_no_mission (cfg : CywConfig) (t : ℚ) (s : CywState)
    (hable : cfg.modern_control_mission_able = true)
    (hsel : s.mission_select = 0) :
    missionBlock cfg t s
      = { s with mordern_control_able := true, give_output_able := true } := by
  unfold missionBlock
  rw [hable]
  simp [hsel]

lemma safetyBlock_timeout (cfg : CywConfig) (t : ℚ) (s : CywState)
    (h : cfg.safety_return_time < t) :
    (safetyBlock cfg t s).cywmc_able = false := by
  unfold safetyBlock; rw [if_pos h]

lemma safetyBlock_ss_r (cfg : CywConfig) (t : ℚ) (s : CywState) :
    (safetyBlock cfg t s).ss_r = s.ss_r := by
  unfold safetyBlock; split <;> rfl

lemma safetyBlock_setout_Z (cfg : CywConfig) (t : ℚ) (s : CywState) :
    (safetyBlock cfg t s).setout_Z = s.setout_Z := by
  unfold safetyBlock; split <;> rfl

lemma safetyBlock_mordern (cfg : CywConfig) (t : ℚ) (s : CywState) :
    (safetyBlock cfg t s).mordern_control_able = s.mordern_control_able := by
  unfold safetyBlock; split <;> rfl

lemma safetyBlock_give (cfg : CywConfig) (t : ℚ) (s : CywState) :
    (safetyBlock cfg t s).give_output_able = s.give_output_able := by
  unfold safetyBlock; split <;> rfl

lemma safetyBlock_return_back (cfg : CywConfig) (t : ℚ) (s : CywState) :
    (safetyBlock cfg t s).return_back_to_0m_able = s.return_back_to_0m_able := by
  unfold safetyBlock; split <;> rfl

lemma safetyBlock_back_Z_aim (cfg : CywConfig) (t : ℚ) (s : CywState) :
    (safetyBlock cfg t s).back_Z_aim = s.back_Z_aim := by
  unfold safetyBlock; split <;> rfl

lemma returnBlock_cywmc_able (cfg : CywConfig) (z : ℚ) (s : CywState) :
    (returnBlock cfg z s).cywmc_able = s.cywmc_able := by
  unfold returnBlock; dsimp only; split_ifs <;> rfl

lemma returnBlock_skip (cfg : CywConfig) (z : ℚ) (s : CywState)
    (h : s.return_back_to_0m_able = false) :
    returnBlock cfg z s = s := by
  unfold returnBlock; rw [h]; rfl

lemma feedbackBlock_cywmc_able (cfg : CywConfig) (inp : CywInput) (s : CywState) :
    (feedbackBlock cfg inp s).cywmc_able = s.cywmc_able := by
  unfold feedbackBlock; dsimp only; split_ifs <;> rfl

lemma feedbackBlock_setout_Z (cfg : CywConfig) (inp : CywInput) (s : CywState) :
    (feedbackBlock cfg inp s).setout_Z = s.setout_Z := by
  unfold feedbackBlock; dsimp only; split_ifs <;> rfl

lemma feedbackBlock_give (cfg : CywConfig) (inp : CywInput) (s : CywState) :
    (feedbackBlock cfg inp s).give_output_able = s.give_output_able := by
  unfold feedbackBlock; dsimp only; split_ifs <;> rfl

lemma outputBlock_cywmc_able (cfg : CywConfig) (s : CywState) :
    (outputBlock cfg s).cywmc_able = s.cywmc_able := by
  unfold outputBlock
  by_cases h1 : s.give_output_able <;> by_cases h2 : cfg.cywmc_angle_control <;>
    simp [h1, h2]

lemma outputBlock_setout_Z (cfg : CywConfig) (s : CywState) :
    (outputBlock cfg s).setout_Z = s.setout_Z := by
  unfold outputBlock
  by_cases h1 : s.give_output_able <;> by_cases h2 : cfg.cywmc_angle_control <;>
    simp [h1, h2]

lemma cywStep_disabled (cfg : CywConfig) (inp : CywInput) (s : CywState)
    (h : s.cywmc_able = false) : cywStep cfg inp s = s := by
  simp [cywStep, h]

lemma cywStep_timeout (cfg : CywConfig) (inp : CywInput) (s : CywState)
    (h : cfg.safety_return_time < inp.run_t) :
    (cywStep cfg inp s).cywmc_able = false := by
  by_cases hable : s.cywmc_able
  · unfold cywStep
    rw [if_pos hable, outputBlock_cywmc_able, feedbackBlock_cywmc_able,
      returnBlock_cywmc_able, safetyBlock_timeout _ _ _ h]
  · rw [cywStep_disabled cfg inp s (by simpa using hable)]
    simpa using hable

/-! ## Theorems: safety timeout (C4) -/

/-- C4 (amended): once `run_t` exceeds the configured safety ceiling the whole
modern-control feedback path is disabled regardless of mission phase
(`cywmc_able` is cleared this cycle and, being the guard of the block, stays
cleared); however the torque and thrust commands are NOT zeroed afterwards:
with the block disabled a cycle leaves the whole state — including
`att_control` and `thrust_sp` — exactly as it was, so the commands stay at
their last (possibly nonzero) values. -/
theorem C4_safety_timeout (cfg : CywConfig) (inp : CywInput) (s : CywState) :
    (cfg.safety_return_time < inp.run_t →
      (cywStep cfg inp s).cywmc_able = false) ∧
    (s.cywmc_able = false →
      cywStep cfg inp s = s) :=
  ⟨cywStep_timeout cfg inp s, cywStep_disabled cfg inp s⟩

theorem C4_safety_timeout_witness :
    ((50 : ℚ) < 60 ∧
      (cywStep
        ⟨true, true, 50, 1/2, 1, 10, 1, 1, 1, 1, 1, 1, 1, 1, 3, 50, 1⟩
        ⟨60, -1, 0, 0, 0, 0, 0, 0, 0, 1/100⟩
        ⟨true, false, false, 0, fun _ => 0, fun _ => 0, fun _ => 0, fun _ => 0,
          fun _ => 0, 1, false, fun _ => 0, false, false, false, 0, 0,
          fun _ => 0, 0⟩).cywmc_able = false) := by
  refine ⟨by norm_num, ?_⟩
  exact (C4_safety_timeout _ _ _).1 (by norm_num)

/-! ## Concrete example configuration, state and inputs

Used by the counterexamples and witnesses over the CYW block.  The vehicle is
armed with Mission 1 freshly selected, hovering 1 m up (`z = -1` in the
NED-style position frame used by `pos_current.z`). -/

def cywCfgEx : CywConfig :=
  { modern_control_mission_able := true
    cywmc_angle_control := true
    safety_return_time := 50
    return_degress_rate := 1/2
    ss_m := 1
    g := 10
    ss_Ixx := 1
    ss_Iyy := 1
    ss_Izz := 1
    T_max := 1
    Mx_max := 1
    My_max := 1
    Mz_max := 1
    ss_G_scale_0 := 1
    mission_2_time_still := 3
    mission_2_time_height := 50
    mission_2_setout_Z := 1 }

def cywStateEx : CywState :=
  { cywmc_able := true
    ss_seted := false
    need_update_r := false
    setout_Z := 0
    ss_r := fun _ => 0
    ss_x := fun _ => 0
    ss_u_actual := fun _ => 0
    ss_u_scale := fun _ => 0
    ss_y := fun _ => 0
    mission_select := 1
    is_msl_t_set := false
    ms1_t := fun _ => 0
    mordern_control_able := false
    give_output_able := false
    return_back_to_0m_able := false
    start_return_back_runt := 0
    back_Z_aim := 0
    att_control := fun _ => 0
    thrust_sp := 0 }

def cywInpT60 : CywInput :=
  { run_t := 60, z := -1, agl_roll := 0, agl_pitch := 0, agl_yaw := 0,
    rate_z := 0, rate_roll := 0, rate_pitch := 0, rate_yaw := 0, dt := 1/100 }

def cywInpT61 : CywInput :=
  { run_t := 61, z := -1, agl_roll := 0, agl_pitch := 0, agl_yaw := 0,
    rate_z := 0, rate_roll := 0, rate_pitch := 0, rate_yaw := 0, dt := 1/100 }

/-! ## Mission sequencer analysis (C2, C10) -/

lemma mission1Base_ms1_t (s : CywState)
    (hplan : s.is_msl_t_set = false ∨ s.ms1_t = ms1Plan) :
    (mission1Base s).ms1_t = ms1Plan := by
  unfold mission1Base
  cases hset : s.is_msl_t_set with
  | false => simp [hset]
  | true =>
    rcases hplan with h | h
    · rw [hset] at h; cases h
    · simp [hset, h]

lemma mission1Base_setout_Z (s : CywState) :
    (mission1Base s).setout_Z = s.setout_Z := by
  unfold mission1Base; split <;> rfl

lemma mission1Base_return_back (s : CywState) :
    (mission1Base s).return_back_to_0m_able = s.return_back_to_0m_able := by
  unfold mission1Base; split <;> rfl

lemma mission1Base_mission_select (s : CywState) :
    (mission1Base s).mission_select = s.mission_select := by
  unfold mission1Base; split <;> rfl

lemma mission1Base_give_output_able (s : CywState) :
    (mission1Base s).give_output_able = s.give_output_able := by
  unfold mission1Base; split <;> rfl

lemma mission1Base_att_control (s : CywState) :
    (mission1Base s).att_control = s.att_control := by
  unfold mission1Base; split <;> rfl

lemma mission1Base_thrust_sp (s : CywState) :
    (mission1Base s).thrust_sp = s.thrust_sp := by
  unfold mission1Base; split <;> rfl

lemma mission1Base_need_update_r (s : CywState) :
    (mission1Base s).need_update_r = s.need_update_r := by
  unfold mission1Base; split <;> rfl

lemma mission1Base_ss_r (s : CywState) :
    (mission1Base s).ss_r = s.ss_r := by
  unfold mission1Base; split <;> rfl

lemma mission2Base_setout_Z (cfg : CywConfig) (s : CywState) :
    (mission2Base cfg s).setout_Z = s.setout_Z := by
  unfold mission2Base; split <;> rfl

lemma mission2Base_give_output_able (cfg : CywConfig) (s : CywState) :
    (mission2Base cfg s).give_output_able = s.give_output_able := by
  unfold mission2Base; split <;> rfl

lemma ms1Plan_0 : ms1Plan 0 = 5 := rfl

lemma ms1Plan_1 : ms1Plan 1 = 15 := rfl

lemma ms1Plan_2 : ms1Plan 2 = 15 := rfl

lemma ms1Plan_3 : ms1Plan 3 = 15 := rfl

/-- Stand-still branch: `run_t < ms1_t[0]`. -/
lemma mission1_standstill (t : ℚ) (s : CywState)
    (hplan : s.is_msl_t_set = false ∨ s.ms1_t = ms1Plan) (h : t < 5) :
    mission1 t s = { mission1Base s with
      give_output_able := false
      att_control := fun _ => 0
      thrust_sp := 0 } := by
  unfold mission1
  dsimp only
  rw [mission1Base_ms1_t s hplan, ms1Plan_0]
  rw [if_pos h]

/-- First hold phase: `run_t > 5 && run_t < 20`. -/
lemma mission1_hold1 (t : ℚ) (s : CywState)
    (hplan : s.is_msl_t_set = false ∨ s.ms1_t = ms1Plan)
    (h1 : 5 < t) (h2 : t < 20) :
    mission1 t s = { mission1Base s with need_update_r := true, setout_Z := 1 } := by
  unfold mission1
  dsimp only
  rw [mission1Base_ms1_t s hplan, ms1Plan_0, ms1Plan_1]
  rw [if_neg (by linarith), if_pos (show (5:ℚ) < t ∧ t < 5 + 15 from ⟨h1, by linarith⟩)]

/-- Second hold phase: reached for `20 ≤ run_t < 35`. -/
lemma mission1_hold2 (t : ℚ) (s : CywState)
    (hplan : s.is_msl_t_set = false ∨ s.ms1_t = ms1Plan)
    (h1 : 20 ≤ t) (h2 : t < 35) :
    mission1 t s = { mission1Base s with need_update_r := true, setout_Z := 1.5 } := by
  unfold mission1
  dsimp only
  rw [mission1Base_ms1_t s hplan, ms1Plan_0, ms1Plan_1, ms1Plan_2]
  rw [if_neg (by linarith : ¬ t < 5)]
  rw [if_neg (show ¬((5:ℚ) < t ∧ t < 5 + 15) from fun hh => by
    have := hh.2; linarith)]
  rw [if_pos (show (5:ℚ) < t ∧ t < 5 + 15 + 15 from ⟨by linarith, by linarith⟩)]

/-- Third hold phase: reached for `35 ≤ run_t < 50`. -/
lemma mission1_hold3 (t : ℚ) (s : CywState)
    (hplan : s.is_msl_t_set = false ∨ s.ms1_t = ms1Plan)
    (h1 : 35 ≤ t) (h2 : t < 50) :
    mission1 t s = { mission1Base s with need_update_r := true, setout_Z := 2 } := by
  unfold mission1
  dsimp only
  rw [mission1Base_ms1_t s hplan, ms1Plan_0, ms1Plan_1, ms1Plan_2, ms1Plan_3]
  rw [if_neg (by linarith : ¬ t < 5)]
  rw [if_neg (show ¬((5:ℚ) < t ∧ t < 5 + 15) from fun hh => by
    have := hh.2; linarith)]
  rw [if_neg (show ¬((5:ℚ) < t ∧ t < 5 + 15 + 15) from fun hh => by
    have := hh.2; linarith)]
  rw [if_pos (show (5:ℚ) < t ∧ t < 5 + 15 + 15 + 15 from ⟨by linarith, by linarith⟩)]

/-- Final `else`: reached when `run_t = 5` exactly or `run_t ≥ 50`. -/
lemma mission1_to_return (t : ℚ) (s : CywState)
    (hplan : s.is_msl_t_set = false ∨ s.ms1_t = ms1Plan)
    (h : t = 5 ∨ 50 ≤ t) :
    mission1 t s = { mission1Base s with
      return_back_to_0m_able := true
      mission_select := 0
      start_return_back_runt := t } := by
  unfold mission1
  dsimp only
  rw [mission1Base_ms1_t s hplan, ms1Plan_0, ms1Plan_1, ms1Plan_2, ms1Plan_3]
  have h5 : ¬ t < 5 := by
    rcases h with rfl | h
    · exact lt_irrefl _
    · linarith
  have hn1 : ¬ ((5:ℚ) < t ∧ t < 5 + 15) := by
    rcases h with rfl | h
    · exact fun hh => lt_irrefl _ hh.1
    · exact fun hh => by have := hh.2; linarith
  have hn2 : ¬ ((5:ℚ) < t ∧ t < 5 + 15 + 15) := by
    rcases h with rfl | h
    · exact fun hh => lt_irrefl _ hh.1
    · exact fun hh => by have := hh.2; linarith
  have hn3 : ¬ ((5:ℚ) < t ∧ t < 5 + 15 + 15 + 15) := by
    rcases h with rfl | h
    · exact fun hh => lt_irrefl _ hh.1
    · exact fun hh => by have := hh.2; linarith
  rw [if_neg h5, if_neg hn1, if_neg hn2, if_neg hn3]

lemma mission1_mission_select_or (t : ℚ) (s : CywState) :
    (mission1 t s).mission_select = s.mission_select ∨
    (mission1 t s).mission_select = 0 := by
  unfold mission1
  dsimp only
  split_ifs <;> simp [mission1Base_mission_select]

/-- With the mission feature enabled and Mission 1 selected, the mission
block is `mission1` applied to the state with the two enable flags raised. -/
lemma missionBlock_select1 (cfg : CywConfig) (t : ℚ) (s : CywState)
    (hable : cfg.modern_control_mission_able = true)
    (hsel : s.mission_select = 1) :
    missionBlock cfg t s
      = mission1 t { s with mordern_control_able := true, give_output_able := true } := by
  unfold missionBlock
  rw [hable]
  rw [if_pos rfl]
  dsimp only
  rw [if_pos (show ({ s with mordern_control_able := true, give_output_able := true } : CywState).mission_select = 1 from hsel)]
  have h2 : ¬ (mission1 t { s with mordern_control_able := true, give_output_able := true }).mission_select = 2 := by
    rcases mission1_mission_select_or t
        { s with mordern_control_able := true, give_output_able := true } with h | h <;>
      rw [h] <;> simp [hsel]
  rw [if_neg h2]

lemma missionBlock_select2 (cfg : CywConfig) (t : ℚ) (s : CywState)
    (hable : cfg.modern_control_mission_able = true)
    (hsel : s.mission_select = 2) :
    missionBlock cfg t s
      = mission2 cfg t { s with mordern_control_able := true, give_output_able := true } := by
  unfold missionBlock
  rw [hable]
  rw [if_pos rfl]
  dsimp only
  rw [if_neg (show ¬ ({ s with mordern_control_able := true, give_output_able := true } : CywState).mission_select = 1 by simp [hsel])]
  rw [if_pos (show ({ s with mordern_control_able := true, give_output_able := true } : CywState).mission_select = 2 from hsel)]

lemma mission2Base_ms1_t_0 (cfg : CywConfig) (s : CywState)
    (hfresh : s.is_msl_t_set = false) :
    (mission2Base cfg s).ms1_t 0 = cfg.mission_2_time_still := by
  unfold mission2Base
  rw [if_neg (by simp [hfresh])]
  simp

lemma mission2_to_return_at_T0 (cfg : CywConfig) (s : CywState)
    (hfresh : s.is_msl_t_set = false) :
    mission2 cfg cfg.mission_2_time_still s
      = { mission2Base cfg s with
          return_back_to_0m_able := true
          mission_select := 0
          start_return_back_runt := cfg.mission_2_time_still } := by
  unfold mission2
  dsimp only
  rw [mission2Base_ms1_t_0 cfg s hfresh]
  rw [if_neg (lt_irrefl _), if_neg (fun hh => lt_irrefl _ hh.1)]

/-- C10: when `run_t` equals the first phase threshold exactly (`run_t = 5`
for Mission 1's plan `[5,15,15,15]`, `run_t = mission_2_time_still` for
Mission 2), neither the stand-still branch (`run_t < T_0`) nor any hold
branch (`run_t > T_0 && ...`) applies: the sequencer enters the
return-to-0m sequence at once, clearing the mission selection, latching the
return origin, leaving the commanded altitude untouched and not suppressing
output the way the stand-still phase would. -/
theorem C10_boundary_skips_to_return (cfg : CywConfig) (s : CywState)
    (hable : cfg.modern_control_mission_able = true)
    (hfresh : s.is_msl_t_set = false) :
    (s.mission_select = 1 →
      (missionBlock cfg 5 s).return_back_to_0m_able = true ∧
      (missionBlock cfg 5 s).mission_select = 0 ∧
      (missionBlock cfg 5 s).start_return_back_runt = 5 ∧
      (missionBlock cfg 5 s).setout_Z = s.setout_Z ∧
      (missionBlock cfg 5 s).give_output_able = true) ∧
    (s.mission_select = 2 →
      (missionBlock cfg cfg.mission_2_time_still s).return_back_to_0m_able = true ∧
      (missionBlock cfg cfg.mission_2_time_still s).mission_select = 0 ∧
      (missionBlock cfg cfg.mission_2_time_still s).start_return_back_runt
          = cfg.mission_2_time_still ∧
      (missionBlock cfg cfg.mission_2_time_still s).setout_Z = s.setout_Z ∧
      (missionBlock cfg cfg.mission_2_time_still s).give_output_able = true) := by
  constructor
  · intro hsel
    rw [missionBlock_select1 cfg 5 s hable hsel]
    rw [mission1_to_return 5 { s with mordern_control_able := true, give_output_able := true } (Or.inl hfresh) (Or.inl rfl)]
    refine ⟨rfl, rfl, rfl, ?_, ?_⟩
    · simp [mission1Base_setout_Z]
    · simp [mission1Base_give_output_able]
  · intro hsel
    rw [missionBlock_select2 cfg cfg.mission_2_time_still s hable hsel]
    rw [mission2_to_return_at_T0 cfg { s with mordern_control_able := true, give_output_able := true } hfresh]
    refine ⟨rfl, rfl, rfl, ?_, ?_⟩
    · simp [mission2Base_setout_Z]
    · simp [mission2Base_give_output_able]

theorem C10_boundary_skips_to_return_witness :
    ((cywCfgEx.modern_control_mission_able = true ∧
        cywStateEx.is_msl_t_set = false ∧ cywStateEx.mission_select = 1) ∧
      (missionBlock cywCfgEx 5 cywStateEx).return_back_to_0m_able = true) := by
  refine ⟨⟨rfl, rfl, rfl⟩, ?_⟩
  exact ((C10_boundary_skips_to_return cywCfgEx cywStateEx rfl rfl).1 rfl).1

/-! ## Theorems: mission phase selection (C2) -/

/-- C2 (amended): for Mission 1's plan `[5,15,15,15]` the phase selection
follows the half-open-interval rule of the claim at every point EXCEPT
`run_t` exactly equal to the first threshold: phase 0 (output suppressed,
commands zeroed) for `run_t < 5`; the hold phases command altitudes 1, 1.5
and 2 m (requesting a reference update) on `(5,20)`, `[20,35)` and `[35,50)`
respectively; and the sequencer is in the Returning phase for `run_t ≥ 50`
— but also already at `run_t = 5` exactly, where the code's strict
`run_t > ms1_t[0]` comparisons skip every hold phase.  In particular
`run_t = 12` selects phase index 1 and `run_t = 61` yields Returning. -/
theorem C2_mission1_phase_rule (cfg : CywConfig) (t : ℚ) (s : CywState)
    (hable : cfg.modern_control_mission_able = true)
    (hsel : s.mission_select = 1)
    (hplan : s.is_msl_t_set = false ∨ s.ms1_t = ms1Plan) :
    (t < 5 →
      (missionBlock cfg t s).give_output_able = false ∧
      (missionBlock cfg t s).att_control = (fun _ => 0) ∧
      (missionBlock cfg t s).thrust_sp = 0 ∧
      (missionBlock cfg t s).setout_Z = s.setout_Z ∧
      (missionBlock cfg t s).return_back_to_0m_able = s.return_back_to_0m_able) ∧
    (5 < t ∧ t < 20 →
      (missionBlock cfg t s).setout_Z = 1 ∧
      (missionBlock cfg t s).need_update_r = true ∧
      (missionBlock cfg t s).return_back_to_0m_able = s.return_back_to_0m_able) ∧
    (20 ≤ t ∧ t < 35 →
      (missionBlock cfg t s).setout_Z = 1.5 ∧
      (missionBlock cfg t s).need_update_r = true ∧
      (missionBlock cfg t s).return_back_to_0m_able = s.return_back_to_0m_able) ∧
    (35 ≤ t ∧ t < 50 →
      (missionBlock cfg t s).setout_Z = 2 ∧
      (missionBlock cfg t s).need_update_r = true ∧
      (missionBlock cfg t s).return_back_to_0m_able = s.return_back_to_0m_able) ∧
    (t = 5 ∨ 50 ≤ t →
      (missionBlock cfg t s).return_back_to_0m_able = true ∧
      (missionBlock cfg t s).mission_select = 0) := by
  rw [missionBlock_select1 cfg t s hable hsel]
  refine ⟨?_, ?_, ?_, ?_, ?_⟩
  · intro h
    rw [mission1_standstill t { s with mordern_control_able := true, give_output_able := true } hplan h]
    exact ⟨rfl, rfl, rfl, by simp [mission1Base_setout_Z],
      by simp [mission1Base_return_back]⟩
  · rintro ⟨h1, h2⟩
    rw [mission1_hold1 t { s with mordern_control_able := true, give_output_able := true } hplan h1 h2]
    exact ⟨rfl, rfl, by simp [mission1Base_return_back]⟩
  · rintro ⟨h1, h2⟩
    rw [mission1_hold2 t { s with mordern_control_able := true, give_output_able := true } hplan h1 h2]
    exact ⟨rfl, rfl, by simp [mission1Base_return_back]⟩
  · rintro ⟨h1, h2⟩
    rw [mission1_hold3 t { s with mordern_control_able := true, give_output_able := true } hplan h1 h2]
    exact ⟨rfl, rfl, by simp [mission1Base_return_back]⟩
  · intro h
    rw [mission1_to_return t { s with mordern_control_able := true, give_output_able := true } hplan h]
    exact ⟨rfl, rfl⟩

theorem C2_mission1_phase_rule_witness :
    (cywCfgEx.modern_control_mission_able = true ∧
      cywStateEx.mission_select = 1 ∧ cywStateEx.is_msl_t_set = false) ∧
    ((5 : ℚ) < 12 ∧ (12 : ℚ) < 20) ∧
    (missionBlock cywCfgEx 12 cywStateEx).setout_Z = 1 := by
  refine ⟨⟨rfl, rfl, rfl⟩, ⟨by norm_num, by norm_num⟩, ?_⟩
  exact ((C2_mission1_phase_rule cywCfgEx 12 cywStateEx rfl rfl
    (Or.inl rfl)).2.1 ⟨by norm_num, by norm_num⟩).1

/-- C2 counterexample: at `run_t = 5` (exactly the first threshold of plan
`[5,15,15,15]`), the claim's half-open rule selects phase index 1 — the 1 m
hold — as `specMission1PhaseIdx` shows; but the sequencer enters the
return-to-0m sequence instead, and the commanded altitude is not set to 1. -/
theorem C2_counterexample :
    specMission1PhaseIdx 5 = 1 ∧
    (missionBlock cywCfgEx 5 cywStateEx).return_back_to_0m_able = true ∧
    (missionBlock cywCfgEx 5 cywStateEx).setout_Z = 0 := by
  have hm : missionBlock cywCfgEx 5 cywStateEx
      = { mission1Base { cywStateEx with mordern_control_able := true, give_output_able := true } with
          return_back_to_0m_able := true
          mission_select := 0
          start_return_back_runt := 5 } := by
    rw [missionBlock_select1 cywCfgEx 5 cywStateEx rfl rfl]
    exact mission1_to_return 5 _ (Or.inl rfl) (Or.inl rfl)
  refine ⟨by norm_num [specMission1PhaseIdx], ?_, ?_⟩
  · rw [hm]
  · rw [hm]
    simp [mission1Base_setout_Z]
    rfl

/-! ## Theorems: Returning ramp (C5) -/

lemma missionBlock_setout_select0 (cfg : CywConfig) (t : ℚ) (s : CywState)
    (hsel : s.mission_select = 0) :
    (missionBlock cfg t s).setout_Z = s.setout_Z := by
  unfold missionBlock
  by_cases hable : cfg.modern_control_mission_able <;> simp [hable, hsel]

lemma missionBlock_return_select0 (cfg : CywConfig) (t : ℚ) (s : CywState)
    (hsel : s.mission_select = 0) :
    (missionBlock cfg t s).return_back_to_0m_able = s.return_back_to_0m_able := by
  unfold missionBlock
  by_cases hable : cfg.modern_control_mission_able <;> simp [hable, hsel]

lemma missionBlock_back_Z_aim_select0 (cfg : CywConfig) (t : ℚ) (s : CywState)
    (hsel : s.mission_select = 0) :
    (missionBlock cfg t s).back_Z_aim = s.back_Z_aim := by
  unfold missionBlock
  by_cases hable : cfg.modern_control_mission_able <;> simp [hable, hsel]

/-- The commanded-altitude update of one Returning evaluation, read off the
branch structure of lines 1091-1111. -/
lemma returnBlock_setout_eq (cfg : CywConfig) (z : ℚ) (s : CywState)
    (hret : s.return_back_to_0m_able = true) :
    (returnBlock cfg z s).setout_Z =
      if -z < s.back_Z_aim / cfg.return_degress_rate ∧ (0.25:ℚ) ≤ s.setout_Z then
        (if s.setout_Z * cfg.return_degress_rate < (0.25:ℚ) then 0
         else s.setout_Z * cfg.return_degress_rate)
      else (if s.setout_Z < (0.25:ℚ) then 0 else s.setout_Z) := by
  unfold returnBlock
  rw [if_pos hret]
  dsimp only
  by_cases h1 : -z < s.back_Z_aim / cfg.return_degress_rate ∧ (0.25:ℚ) ≤ s.setout_Z
  · simp only [if_pos h1]
    by_cases h2 : s.setout_Z * cfg.return_degress_rate < (0.25:ℚ)
    · simp only [if_pos h2]
      by_cases h3 : -z < (0.2:ℚ) <;> simp [h3]
    · simp only [if_neg h2]
      by_cases h3 : -z < (0.2:ℚ) <;> simp [h3]
  · simp only [if_neg h1]
    by_cases h2 : s.setout_Z < (0.25:ℚ)
    · simp only [if_pos h2]
      by_cases h3 : -z < (0.2:ℚ) <;> simp [h3]
    · simp only [if_neg h2]
      by_cases h3 : -z < (0.2:ℚ) <;> simp [h3]

/-- C5: during the Returning phase a cycle either leaves the commanded
altitude `setout_Z` unchanged, multiplies it by the fixed per-step ramp
factor, or snaps it to 0; while it is at or above the 0.25 m floor it never
increases, and whenever it is below the floor it is exactly 0 after the
evaluation. -/
theorem C5_returning_ramp (cfg : CywConfig) (inp : CywInput) (s : CywState)
    (hr : rampRateValid cfg)
    (hable : s.cywmc_able = true)
    (hret : s.return_back_to_0m_able = true)
    (hsel : s.mission_select = 0) :
    ((cywStep cfg inp s).setout_Z = s.setout_Z ∨
      (cywStep cfg inp s).setout_Z = s.setout_Z * cfg.return_degress_rate ∨
      (cywStep cfg inp s).setout_Z = 0) ∧
    ((0.25:ℚ) ≤ s.setout_Z → (cywStep cfg inp s).setout_Z ≤ s.setout_Z) ∧
    (s.setout_Z < (0.25:ℚ) → (cywStep cfg inp s).setout_Z = 0) := by
  obtain ⟨hr0, hr1⟩ := hr
  have hs0 : (initSS cfg s).setout_Z = s.setout_Z := initSS_setout_Z cfg s
  have hs1 : (updateReference cfg (initSS cfg s)).setout_Z = s.setout_Z := by
    rw [updateReference_setout_Z, hs0]
  have hsel1 : (updateReference cfg (initSS cfg s)).mission_select = s.mission_select := by
    rw [updateReference_mission_select, initSS_mission_select]
  have hs2 : (missionBlock cfg inp.run_t (updateReference cfg (initSS cfg s))).setout_Z
      = s.setout_Z := by
    rw [missionBlock_setout_select0 _ _ _ (by rw [hsel1, hsel]), hs1]
  have hs3 : (safetyBlock cfg inp.run_t (missionBlock cfg inp.run_t
      (updateReference cfg (initSS cfg s)))).setout_Z = s.setout_Z := by
    rw [safetyBlock_setout_Z, hs2]
  have hb3 : (safetyBlock cfg inp.run_t (missionBlock cfg inp.run_t
      (updateReference cfg (initSS cfg s)))).back_Z_aim = s.back_Z_aim := by
    rw [safetyBlock_back_Z_aim,
      missionBlock_back_Z_aim_select0 _ _ _ (by rw [hsel1, hsel]),
      updateReference_back_Z_aim, initSS_back_Z_aim]
  have hret3 : (safetyBlock cfg inp.run_t (missionBlock cfg inp.run_t
      (updateReference cfg (initSS cfg s)))).return_back_to_0m_able = true := by
    rw [safetyBlock_return_back,
      missionBlock_return_select0 _ _ _ (by rw [hsel1, hsel]),
      updateReference_return_back, initSS_return_back, hret]
  have hchain : (cywStep cfg inp s).setout_Z
      = (returnBlock cfg inp.z (safetyBlock cfg inp.run_t (missionBlock cfg inp.run_t
          (updateReference cfg (initSS cfg s))))).setout_Z := by
    unfold cywStep
    rw [if_pos hable, outputBlock_setout_Z, feedbackBlock_setout_Z]
  rw [hchain, returnBlock_setout_eq _ _ _ hret3, hs3, hb3]
  split_ifs with h1 h2 h3
  · exact ⟨Or.inr (Or.inr rfl), fun hge => by linarith, fun _ => rfl⟩
  · refine ⟨Or.inr (Or.inl rfl), fun hge => ?_, fun hlt => absurd h1.2 (not_le.mpr hlt)⟩
    exact mul_le_of_le_one_right (by linarith) (le_of_lt hr1)
  · exact ⟨Or.inr (Or.inr rfl), fun hge => by linarith, fun _ => rfl⟩
  · exact ⟨Or.inl rfl, fun _ => le_refl _, fun hlt => absurd hlt h3⟩

theorem C5_returning_ramp_witness :
    (rampRateValid cywCfgEx ∧
      ({ cywStateEx with return_back_to_0m_able := true, mission_select := 0 } : CywState).cywmc_able = true ∧
      ({ cywStateEx with return_back_to_0m_able := true, mission_select := 0 } : CywState).return_back_to_0m_able = true ∧
      ({ cywStateEx with return_back_to_0m_able := true, mission_select := 0 } : CywState).mission_select = 0) ∧
    (({ cywStateEx with return_back_to_0m_able := true, mission_select := 0 } : CywState).setout_Z < (0.25:ℚ) →
      (cywStep cywCfgEx cywInpT61
        { cywStateEx with return_back_to_0m_able := true, mission_select := 0 }).setout_Z = 0) := by
  refine ⟨⟨⟨by norm_num [cywCfgEx], by norm_num [cywCfgEx]⟩, rfl, rfl, rfl⟩, ?_⟩
  exact (C5_returning_ramp cywCfgEx cywInpT61
    { cywStateEx with return_back_to_0m_able := true, mission_select := 0 }
    ⟨by norm_num [cywCfgEx], by norm_num [cywCfgEx]⟩ rfl rfl rfl).2.2

/-! ## Theorems: state-space feedback cycle (C1) -/

lemma initSS_seted (cfg : CywConfig) (s : CywState) (h : s.ss_seted = true) :
    initSS cfg s = s := by
  unfold initSS
  rw [if_pos h]

lemma updateReference_skip (cfg : CywConfig) (s : CywState)
    (h : s.need_update_r = false) :
    updateReference cfg s = s := by
  unfold updateReference
  rw [h]
  rfl

lemma feedbackBlock_active (cfg : CywConfig) (inp : CywInput) (s : CywState)
    (h : s.mordern_control_able = true) :
    feedbackBlock cfg inp s = { s with
      ss_u_actual := fun i => s.ss_r i - ∑ j, ss_K i j * stateVec inp j
      ss_x := fun i => stateVec inp i +
        ((∑ j, ss_B cfg i j * (s.ss_r j - ∑ k, ss_K j k * stateVec inp k)) +
          ∑ j, ss_A i j * stateVec inp j) * inp.dt
      ss_y := fun i => ∑ j, ss_C i j *
        (stateVec inp j +
          ((∑ k, ss_B cfg j k * (s.ss_r k - ∑ l, ss_K k l * stateVec inp l)) +
            ∑ k, ss_A j k * stateVec inp k) * inp.dt) } := by
  unfold feedbackBlock
  rw [if_pos h]

lemma outputBlock_ss_u_actual (cfg : CywConfig) (s : CywState) :
    (outputBlock cfg s).ss_u_actual = s.ss_u_actual := by
  unfold outputBlock
  by_cases h1 : s.give_output_able <;> by_cases h2 : cfg.cywmc_angle_control <;>
    simp [h1, h2]

lemma outputBlock_ss_x (cfg : CywConfig) (s : CywState) :
    (outputBlock cfg s).ss_x = s.ss_x := by
  unfold outputBlock
  by_cases h1 : s.give_output_able <;> by_cases h2 : cfg.cywmc_angle_control <;>
    simp [h1, h2]

lemma outputBlock_active_u_scale (cfg : CywConfig) (s : CywState)
    (h : s.give_output_able = true) :
    (outputBlock cfg s).ss_u_scale = fun i =>
      if i = 0 then (s.ss_u_actual 0 + cfg.ss_m * cfg.g) / cfg.T_max
      else if i = 1 then s.ss_u_actual 1 / cfg.Mx_max
      else if i = 2 then s.ss_u_actual 2 / cfg.My_max
      else s.ss_u_actual 3 / cfg.Mz_max := by
  unfold outputBlock
  rw [if_pos h]
  by_cases h2 : cfg.cywmc_angle_control <;> simp [h2]

lemma outputBlock_active_thrust (cfg : CywConfig) (s : CywState)
    (h : s.give_output_able = true) :
    (outputBlock cfg s).thrust_sp
      = (s.ss_u_actual 0 + cfg.ss_m * cfg.g) / cfg.T_max := by
  unfold outputBlock
  rw [if_pos h]
  by_cases h2 : cfg.cywmc_angle_control <;> simp [h2]

/-- C1: on an active cycle the state vector is built as
`x = [-altitude, roll, pitch, yaw, -vertical_rate, roll_rate, pitch_rate,
yaw_rate]` (altitude and its rate sign-flipped), the control demand is
`u = r - K*x`, the state is advanced by one forward-Euler step
`x ← x + (A*x + B*u)*dt`, and the normalized actuator demands are
`u_scale[0] = (u[0] + mass*g)/learned_max_thrust` for the thrust channel and
`u_scale[i] = u[i]/learned_max_torque[i]` for each torque channel
`i ∈ {1,2,3}`; the thrust channel is what is commanded as `_thrust_sp`. -/
theorem C1_state_space_cycle (cfg : CywConfig) (inp : CywInput) (s : CywState)
    (hable : s.cywmc_able = true)
    (hmission : cfg.modern_control_mission_able = true)
    (hsel : s.mission_select = 0)
    (hseted : s.ss_seted = true)
    (hneed : s.need_update_r = false)
    (hret : s.return_back_to_0m_able = false) :
    (cywStep cfg inp s).ss_u_actual
        = (fun k => s.ss_r k - ∑ j, ss_K k j * stateVec inp j) ∧
    (cywStep cfg inp s).ss_x
        = (fun i => stateVec inp i +
            ((∑ j, ss_A i j * stateVec inp j) +
              ∑ k, ss_B cfg i k * (s.ss_r k - ∑ j, ss_K k j * stateVec inp j))
            * inp.dt) ∧
    (cywStep cfg inp s).ss_u_scale 0
        = ((s.ss_r 0 - ∑ j, ss_K 0 j * stateVec inp j) + cfg.ss_m * cfg.g)
            / cfg.T_max ∧
    (cywStep cfg inp s).ss_u_scale 1
        = (s.ss_r 1 - ∑ j, ss_K 1 j * stateVec inp j) / cfg.Mx_max ∧
    (cywStep cfg inp s).ss_u_scale 2
        = (s.ss_r 2 - ∑ j, ss_K 2 j * stateVec inp j) / cfg.My_max ∧
    (cywStep cfg inp s).ss_u_scale 3
        = (s.ss_r 3 - ∑ j, ss_K 3 j * stateVec inp j) / cfg.Mz_max ∧
    (cywStep cfg inp s).thrust_sp = (cywStep cfg inp s).ss_u_scale 0 := by
  have hstep : cywStep cfg inp s
      = outputBlock cfg (feedbackBlock cfg inp (returnBlock cfg inp.z
          (safetyBlock cfg inp.run_t (missionBlock cfg inp.run_t s)))) := by
    unfold cywStep
    rw [if_pos hable, initSS_seted cfg s hseted, updateReference_skip cfg s hneed]
  have hM : missionBlock cfg inp.run_t s
      = { s with mordern_control_able := true, give_output_able := true } :=
    missionBlock_no_mission cfg inp.run_t s hmission hsel
  have hRB : returnBlock cfg inp.z (safetyBlock cfg inp.run_t (missionBlock cfg inp.run_t s))
      = safetyBlock cfg inp.run_t (missionBlock cfg inp.run_t s) := by
    apply returnBlock_skip
    rw [safetyBlock_return_back, hM]
    exact hret
  have hmodern : (safetyBlock cfg inp.run_t (missionBlock cfg inp.run_t s)).mordern_control_able
      = true := by
    rw [safetyBlock_mordern, hM]
  have hrr : (safetyBlock cfg inp.run_t (missionBlock cfg inp.run_t s)).ss_r = s.ss_r := by
    rw [safetyBlock_ss_r, hM]
  have hF := feedbackBlock_active cfg inp
    (safetyBlock cfg inp.run_t (missionBlock cfg inp.run_t s)) hmodern
  have hgive : (feedbackBlock cfg inp (safetyBlock cfg inp.run_t
      (missionBlock cfg inp.run_t s))).give_output_able = true := by
    rw [feedbackBlock_give, safetyBlock_give, hM]
  rw [hstep, hRB]
  refine ⟨?_, ?_, ?_, ?_, ?_, ?_, ?_⟩
  · rw [outputBlock_ss_u_actual]
    simp only [hF, hrr]
  · rw [outputBlock_ss_x]
    simp only [hF, hrr]
    funext i
    ring
  · rw [outputBlock_active_u_scale cfg _ hgive]
    simp only [hF, hrr]
    simp
  · rw [outputBlock_active_u_scale cfg _ hgive]
    simp only [hF, hrr]
    simp
  · rw [outputBlock_active_u_scale cfg _ hgive]
    simp only [hF, hrr]
    simp
  · rw [outputBlock_active_u_scale cfg _ hgive]
    simp only [hF, hrr]
    simp
  · rw [outputBlock_active_thrust cfg _ hgive, outputBlock_active_u_scale cfg _ hgive]
    simp only [hF, hrr]
    simp

theorem C1_state_space_cycle_witness :
    (({ cywStateEx with mission_select := 0, ss_seted := true } : CywState).cywmc_able = true ∧
      cywCfgEx.modern_control_mission_able = true ∧
      ({ cywStateEx with mission_select := 0, ss_seted := true } : CywState).mission_select = 0 ∧
      ({ cywStateEx with mission_select := 0, ss_seted := true } : CywState).ss_seted = true ∧
      ({ cywStateEx with mission_select := 0, ss_seted := true } : CywState).need_update_r = false ∧
      ({ cywStateEx with mission_select := 0, ss_seted := true } : CywState).return_back_to_0m_able = false) ∧
    (cywStep cywCfgEx cywInpT60
        { cywStateEx with mission_select := 0, ss_seted := true }).thrust_sp
      = (cywStep cywCfgEx cywInpT60
        { cywStateEx with mission_select := 0, ss_seted := true }).ss_u_scale 0 := by
  refine ⟨⟨rfl, rfl, rfl, rfl, rfl, rfl⟩, ?_⟩
  exact (C1_state_space_cycle cywCfgEx cywInpT60
    { cywStateEx with mission_select := 0, ss_seted := true }
    rfl rfl rfl rfl rfl rfl).2.2.2.2.2.2

set_option maxHeartbeats 2000000 in
/-- C4 counterexample: with a 50 s safety ceiling, on the cycle at
`run_t = 60` the block runs once more (the timeout only clears the
`cywmc_able` guard), commands a thrust of `(u[0] + m*g)/T_max = 7` and shuts
itself off; on the next cycle (`run_t = 61`) the block is disabled but the
thrust command is still the stale value 7 — not a zeroed safe value. -/
theorem C4_counterexample :
    cywCfgEx.safety_return_time < cywInpT60.run_t ∧
    (cywStep cywCfgEx cywInpT60 cywStateEx).cywmc_able = false ∧
    (cywStep cywCfgEx cywInpT61 (cywStep cywCfgEx cywInpT60 cywStateEx)).thrust_sp
      = 7 := by
  have h1 : (cywStep cywCfgEx cywInpT60 cywStateEx).cywmc_able = false :=
    cywStep_timeout _ _ _ (by norm_num [cywCfgEx, cywInpT60])
  refine ⟨by norm_num [cywCfgEx, cywInpT60], h1, ?_⟩
  rw [cywStep_disabled _ _ _ h1]
  norm_num +decide [cywStep, initSS, updateReference, missionBlock, mission1,
    mission1Base, mission2, mission2Base, safetyBlock, returnBlock,
    feedbackBlock, outputBlock, ms1Plan, stateVec, scaledReference,
    ss_K, ss_A, ss_B, ss_C, cywCfgEx, cywStateEx, cywInpT60,
    Fin.sum_univ_eight, Fin.sum_univ_four]

/-! ## Attitude controller quaternion error law (C8)

`control_attitude` (lines 538-615) is the disabled classical path that the
spec keeps as a design reference: its body is present in the source as
commented-out code.  It is embedded here over `ℝ` (the computation is
genuinely transcendental: `acosf`, `asinf`, `cosf`, `sinf`, square roots).
The quaternion/vector operations it uses come from the PX4 matrix library,
an external collaborator of this module; they are modelled from that
library's documented semantics: `Quaternion(src, dst)` is the shortest
rotation taking `src` to `dst` (with a half-turn fallback when the two are
near-antiparallel), `inversed` is the conjugate divided by the squared norm,
`dcm_z` is the third column of the rotation matrix, and `normalized`
divides by the Euclidean norm. -/

@[ext]
structure V3R where
  x : ℝ
  y : ℝ
  z : ℝ

@[ext]
structure QuatR where
  a : ℝ
  b : ℝ
  c : ℝ
  d : ℝ

noncomputable def v3dot (u v : V3R) : ℝ := u.x * v.x + u.y * v.y + u.z * v.z

noncomputable def v3cross (u v : V3R) : V3R :=
  ⟨u.y * v.z - u.z * v.y, u.z * v.x - u.x * v.z, u.x * v.y - u.y * v.x⟩

noncomputable def v3normSq (u : V3R) : ℝ := v3dot u u

noncomputable def v3norm (u : V3R) : ℝ := Real.sqrt (v3normSq u)

noncomputable def v3abs (u : V3R) : V3R := ⟨|u.x|, |u.y|, |u.z|⟩

noncomputable def qmul (p q : QuatR) : QuatR :=
  ⟨p.a * q.a - p.b * q.b - p.c * q.c - p.d * q.d,
   p.a * q.b + p.b * q.a + p.c * q.d - p.d * q.c,
   p.a * q.c - p.b * q.d + p.c * q.a + p.d * q.b,
   p.a * q.d + p.b * q.c - p.c * q.b + p.d * q.a⟩

noncomputable def qnormSq (q : QuatR) : ℝ := q.a ^ 2 + q.b ^ 2 + q.c ^ 2 + q.d ^ 2

noncomputable def qnorm (q : QuatR) : ℝ := Real.sqrt (qnormSq q)

noncomputable def qnormalize (q : QuatR) : QuatR :=
  ⟨q.a / qnorm q, q.b / qnorm q, q.c / qnorm q, q.d / qnorm q⟩

noncomputable def qinversed (q : QuatR) : QuatR :=
  ⟨q.a / qnormSq q, -q.b / qnormSq q, -q.c / qnormSq q, -q.d / qnormSq q⟩

/-- Third column of the body-to-world rotation matrix of a quaternion. -/
noncomputable def qdcm_z (q : QuatR) : V3R :=
  ⟨2 * (q.a * q.c + q.b * q.d),
   2 * (q.c * q.d - q.a * q.b),
   q.a * q.a - q.b * q.b - q.c * q.c + q.d * q.d⟩

/-- `Quaternion(src, dst)`: shortest rotation from `src` to `dst`, with the
half-turn fallback when the vectors are near-antiparallel. -/
noncomputable def quatFromTwoVecs (src dst : V3R) : QuatR :=
  let cr := v3cross src dst
  let dt := v3dot src dst
  if v3norm cr < 1e-5 ∧ dt < 0 then
    let m := v3abs src
    let axis : V3R :=
      if m.x < m.y then (if m.x < m.z then ⟨1, 0, 0⟩ else ⟨0, 0, 1⟩)
      else (if m.y < m.z then ⟨0, 1, 0⟩ else ⟨0, 0, 1⟩)
    let cr2 := v3cross src axis
    qnormalize ⟨0, cr2.x, cr2.y, cr2.z⟩
  else
    qnormalize ⟨dt + Real.sqrt (v3normSq src * v3normSq dst), cr.x, cr.y, cr.z⟩

/-- `math::signNoZero`: `+1` for nonnegative values, `-1` otherwise. -/
noncomputable def signNoZero (v : ℝ) : ℝ := if 0 ≤ v then 1 else -1

/-- `math::constrain`. -/
noncomputable def constrainR (v lo hi : ℝ) : ℝ := max lo (min hi v)

/-- Lines 544-592 of `control_attitude`: the yaw-prioritized quaternion error
law producing the rate setpoint, up to and including
`_rates_sp = eq.emult(attitude_gain)`, i.e. before the commented yaw
feed-forward addition of line 602. -/
noncomputable def control_attitude_rate_setpoint (q_in qd_in : QuatR)
    (att_p : V3R) : V3R :=
  let roll_pitch_gain := (att_p.x + att_p.y) / 2
  let yaw_w := constrainR (att_p.z / roll_pitch_gain) 0 1
  let gain : V3R := ⟨att_p.x, att_p.y, roll_pitch_gain⟩
  let q := qnormalize q_in
  let qd0 := qnormalize qd_in
  let e_z := qdcm_z q
  let e_z_d := qdcm_z qd0
  let qd_red0 := quatFromTwoVecs e_z e_z_d
  let qd_red :=
    if 1 - 1e-5 < |qd_red0.b| ∨ 1 - 1e-5 < |qd_red0.c| then qd0
    else qmul qd_red0 q
  let q_mix0 := qmul (qinversed qd_red) qd0
  let sgn := signNoZero q_mix0.a
  let q_mix : QuatR := ⟨sgn * q_mix0.a, sgn * q_mix0.b, sgn * q_mix0.c, sgn * q_mix0.d⟩
  let m0 := constrainR q_mix.a (-1) 1
  let m3 := constrainR q_mix.d (-1) 1
  let qd1 := qmul qd_red
    ⟨Real.cos (yaw_w * Real.arccos m0), 0, 0, Real.sin (yaw_w * Real.arcsin m3)⟩
  let qe := qmul (qinversed q) qd1
  let eq_v : V3R :=
    ⟨2 * signNoZero qe.a * qe.b, 2 * signNoZero qe.a * qe.c, 2 * signNoZero qe.a * qe.d⟩
  ⟨eq_v.x * gain.x, eq_v.y * gain.y, eq_v.z * gain.z⟩

lemma qnormSq_nonneg (q : QuatR) : 0 ≤ qnormSq q := by
  unfold qnormSq
  positivity

lemma qnormSq_normalize (q : QuatR) (h : qnormSq q ≠ 0) :
    qnormSq (qnormalize q) = 1 := by
  have hpos : 0 < qnormSq q := lt_of_le_of_ne (qnormSq_nonneg q) (Ne.symm h)
  have hn : qnorm q ^ 2 = qnormSq q := Real.sq_sqrt (le_of_lt hpos)
  have hnne : qnorm q ≠ 0 := by
    unfold qnorm
    exact ne_of_gt (Real.sqrt_pos.mpr hpos)
  show (q.a / qnorm q) ^ 2 + (q.b / qnorm q) ^ 2 + (q.c / qnorm q) ^ 2
      + (q.d / qnorm q) ^ 2 = 1
  have hsplit : (q.a / qnorm q) ^ 2 + (q.b / qnorm q) ^ 2 + (q.c / qnorm q) ^ 2
      + (q.d / qnorm q) ^ 2 = (q.a ^ 2 + q.b ^ 2 + q.c ^ 2 + q.d ^ 2) / qnorm q ^ 2 := by
    field_simp
  rw [hsplit, hn]
  exact div_self h

lemma dcm_z_normSq (q : QuatR) : v3normSq (qdcm_z q) = qnormSq q ^ 2 := by
  unfold v3normSq v3dot qdcm_z qnormSq
  ring

lemma quatFromTwoVecs_self (u : V3R) (h : 0 < v3normSq u) :
    quatFromTwoVecs u u = ⟨1, 0, 0, 0⟩ := by
  unfold quatFromTwoVecs
  have hcr : v3cross u u = ⟨0, 0, 0⟩ := by
    unfold v3cross
    ext <;> ring
  have hdt : v3dot u u = v3normSq u := rfl
  rw [hcr]
  rw [if_neg (fun hc => absurd hc.2 (not_lt.mpr (le_of_lt h)))]
  have hsqrt : Real.sqrt (v3normSq u * v3normSq u) = v3normSq u :=
    Real.sqrt_mul_self (le_of_lt h)
  show qnormalize ⟨v3dot u u + Real.sqrt (v3normSq u * v3normSq u),
    (⟨0,0,0⟩ : V3R).x, (⟨0,0,0⟩ : V3R).y, (⟨0,0,0⟩ : V3R).z⟩ = ⟨1, 0, 0, 0⟩
  rw [hdt, hsqrt]
  have hw : v3normSq u + v3normSq u = 2 * v3normSq u := by ring
  have hnorm : qnorm ⟨v3normSq u + v3normSq u, (⟨0,0,0⟩ : V3R).x,
      (⟨0,0,0⟩ : V3R).y, (⟨0,0,0⟩ : V3R).z⟩ = 2 * v3normSq u := by
    unfold qnorm qnormSq
    show Real.sqrt ((v3normSq u + v3normSq u) ^ 2 + (0:ℝ) ^ 2 + (0:ℝ) ^ 2 + (0:ℝ) ^ 2)
      = 2 * v3normSq u
    have : (v3normSq u + v3normSq u) ^ 2 + (0:ℝ) ^ 2 + (0:ℝ) ^ 2 + (0:ℝ) ^ 2
        = (2 * v3normSq u) ^ 2 := by ring
    rw [this]
    exact Real.sqrt_sq (by linarith)
  unfold qnormalize
  rw [hnorm]
  have h2 : (2 : ℝ) * v3normSq u ≠ 0 := by positivity
  ext
  · show (v3normSq u + v3normSq u) / (2 * v3normSq u) = 1
    rw [hw]
    exact div_self h2
  · show (0:ℝ) / (2 * v3normSq u) = 0
    exact zero_div _
  · show (0:ℝ) / (2 * v3normSq u) = 0
    exact zero_div _
  · show (0:ℝ) / (2 * v3normSq u) = 0
    exact zero_div _

lemma qinversed_qmul_self (q : QuatR) (h : qnormSq q = 1) :
    qmul (qinversed q) q = ⟨1, 0, 0, 0⟩ := by
  unfold qmul qinversed
  rw [h]
  ext
  · show q.a / 1 * q.a - -q.b / 1 * q.b - -q.c / 1 * q.c - -q.d / 1 * q.d = 1
    have := h
    unfold qnormSq at this
    field_simp
    linarith
  · show q.a / 1 * q.b + -q.b / 1 * q.a + -q.c / 1 * q.d - -q.d / 1 * q.c = 0
    ring
  · show q.a / 1 * q.c - -q.b / 1 * q.d + -q.c / 1 * q.a + -q.d / 1 * q.b = 0
    ring
  · show q.a / 1 * q.d + -q.b / 1 * q.c - -q.c / 1 * q.b + -q.d / 1 * q.a = 0
    ring

lemma qmul_one_left (q : QuatR) : qmul ⟨1, 0, 0, 0⟩ q = q := by
  unfold qmul
  ext <;> dsimp <;> ring

lemma qmul_one_right (q : QuatR) : qmul q ⟨1, 0, 0, 0⟩ = q := by
  unfold qmul
  ext <;> dsimp <;> ring

/-- C8: when the current attitude quaternion equals the desired attitude
quaternion (a valid, nonzero quaternion), the rate setpoint computed by the
attitude controller's quaternion error law — ignoring the yaw feed-forward
term — is the zero vector, for every attitude gain vector. -/
theorem C8_attitude_error_zero (q_in qd_in : QuatR) (att_p : V3R)
    (heq : q_in = qd_in) (hnz : qnormSq q_in ≠ 0) :
    control_attitude_rate_setpoint q_in qd_in att_p = ⟨0, 0, 0⟩ := by
  subst heq
  have hq1 : qnormSq (qnormalize q_in) = 1 := qnormSq_normalize q_in hnz
  have hezn : 0 < v3normSq (qdcm_z (qnormalize q_in)) := by
    rw [dcm_z_normSq, hq1]
    norm_num
  have hred0 : quatFromTwoVecs (qdcm_z (qnormalize q_in))
      (qdcm_z (qnormalize q_in)) = ⟨1, 0, 0, 0⟩ :=
    quatFromTwoVecs_self _ hezn
  have hmix : qmul (qinversed (qnormalize q_in)) (qnormalize q_in) = ⟨1, 0, 0, 0⟩ :=
    qinversed_qmul_self _ hq1
  have ha : (⟨1, 0, 0, 0⟩ : QuatR).a = 1 := rfl
  have hb : (⟨1, 0, 0, 0⟩ : QuatR).b = 0 := rfl
  have hc : (⟨1, 0, 0, 0⟩ : QuatR).c = 0 := rfl
  have hd : (⟨1, 0, 0, 0⟩ : QuatR).d = 0 := rfl
  have hsgn : signNoZero 1 = 1 := by
    unfold signNoZero
    rw [if_pos (by norm_num : (0:ℝ) ≤ 1)]
  have hm0 : constrainR 1 (-1) 1 = 1 := by
    unfold constrainR
    rw [min_self, max_eq_right (by norm_num : (-1:ℝ) ≤ 1)]
  have hm3 : constrainR 0 (-1) 1 = 0 := by
    unfold constrainR
    rw [min_eq_right (by norm_num : (0:ℝ) ≤ 1),
      max_eq_right (by norm_num : (-1:ℝ) ≤ 0)]
  unfold control_attitude_rate_setpoint
  simp only [hred0, hb, hc]
  rw [if_neg (by norm_num)]
  simp only [qmul_one_left, hmix, ha, hd, hsgn, one_mul, mul_one, mul_zero]
  simp only [hm0, hm3, Real.arccos_one, Real.arcsin_zero, mul_zero,
    Real.cos_zero, Real.sin_zero]
  simp only [qmul_one_right, hmix, ha, hb, hc, hd, hsgn, mul_zero, zero_mul]

theorem C8_attitude_error_zero_witness :
    ((⟨1, 0, 0, 0⟩ : QuatR) = ⟨1, 0, 0, 0⟩ ∧ qnormSq ⟨1, 0, 0, 0⟩ ≠ 0) ∧
    control_attitude_rate_setpoint ⟨1, 0, 0, 0⟩ ⟨1, 0, 0, 0⟩ ⟨6, 6, 2⟩ = ⟨0, 0, 0⟩ := by
  refine ⟨⟨rfl, by norm_num [qnormSq]⟩, ?_⟩
  exact C8_attitude_error_zero ⟨1, 0, 0, 0⟩ ⟨1, 0, 0, 0⟩ ⟨6, 6, 2⟩ rfl
    (by norm_num [qnormSq])

end McAttControl
